import Mathlib

/-!
Verification of the two marketplace applications (item sharing, student gigs)
against their specification.  The data model and operations below are shallow
embeddings of the Python source: each SQL table becomes a list of records, a
connection-scoped operation becomes a function from store to store, real
(`REAL`) columns are modelled by rationals, and a caught Python exception is
modelled by the value the exception handler returns.  Timestamps and image
blobs are outside the model; no claim refers to them.
-/

namespace GigApp

/-- Row of the `users` table of the gig app (columns used by the core). -/
structure User where
  id : Nat
  username : String
  skills : String
  rating : ℚ
  completed_tasks : Nat
  total_earnings : ℚ
deriving DecidableEq, Repr

/-- Row of the `gigs` table.  `budget_amount` is NULL-able in the schema; a
missing budget is modelled as 0, and it is only ever read for fixed-budget
gigs, for which `create_gig` enforces a positive amount. -/
structure Gig where
  id : Nat
  user_id : Nat
  title : String
  description : String
  category : String
  budget_type : String
  budget_amount : ℚ
  urgency : String
  status : String
deriving DecidableEq, Repr

/-- Row of the `bids` table. -/
structure Bid where
  id : Nat
  gig_id : Nat
  bidder_id : Nat
  amount : ℚ
  estimated_time : String
  proposal : String
  status : String
deriving DecidableEq, Repr

/-- Row of the `tasks` table (timestamp columns omitted). -/
structure Task where
  id : Nat
  gig_id : Nat
  bid_id : Nat
  client_id : Nat
  freelancer_id : Nat
  amount : ℚ
  status : String
  client_rating : Option ℚ
  client_review : Option String
deriving DecidableEq, Repr

/-- Row of the `portfolio` table (timestamp columns omitted). -/
structure PortfolioItem where
  user_id : Nat
  task_id : Nat
  title : String
  description : String
  skills_used : Option String
  client_feedback : Option String
  rating : Option ℚ
deriving DecidableEq, Repr

/-- The persisted record store of the gig app.  The `next_*` fields model the
AUTOINCREMENT primary keys. -/
structure Store where
  users : List User
  gigs : List Gig
  bids : List Bid
  tasks : List Task
  portfolio : List PortfolioItem
  next_gig_id : Nat
  next_bid_id : Nat
  next_task_id : Nat
deriving DecidableEq, Repr

/-- Source `create_gig`: validates required fields (Python truthiness of the strings)
and the fixed budget, then inserts a gig with status 'open'. -/
def create_gig (s : Store) (user_id : Nat) (title description category budget_type : String)
    (budget_amount : ℚ) (urgency : String) : (Bool × String) × Store :=
  if title = "" ∨ description = "" ∨ category = "" ∨ budget_type = "" ∨ urgency = "" then
    ((false, "Please fill all required fields"), s)
  else if budget_type = "fixed" ∧ budget_amount ≤ 0 then
    ((false, "Please enter a valid budget amount"), s)
  else
    ((true, "Gig created successfully!"),
     { s with
        gigs := s.gigs ++ [{ id := s.next_gig_id, user_id := user_id, title := title,
                             description := description, category := category,
                             budget_type := budget_type, budget_amount := budget_amount,
                             urgency := urgency, status := "open" }],
        next_gig_id := s.next_gig_id + 1 })

/-- Source `update_gig_status`: unconditional status write on one gig row. -/
def update_gig_status (s : Store) (gig_id : Nat) (status : String) : (Bool × String) × Store :=
  ((true, ""),
   { s with gigs := s.gigs.map (fun g => if g.id == gig_id then { g with status := status } else g) })

/-- Source `place_bid`: rejects a non-positive amount, a duplicate bid by the same
bidder on the same gig, and (for fixed-budget gigs) an amount above 150% of
the budget; otherwise inserts a pending bid. -/
def place_bid (s : Store) (gig_id bidder_id : Nat) (amount : ℚ)
    (estimated_time proposal : String) : (Bool × String) × Store :=
  if amount ≤ 0 then
    ((false, "Please enter a valid bid amount"), s)
  else if (s.bids.find? (fun b => b.gig_id == gig_id && b.bidder_id == bidder_id)).isSome then
    ((false, "You have already placed a bid on this gig"), s)
  else if (match s.gigs.find? (fun g => g.id == gig_id) with
           | some g => decide (g.budget_type = "fixed" ∧ g.budget_amount * (3/2 : ℚ) < amount)
           | none => false) then
    ((false, "Your bid exceeds the maximum allowed amount (150% of budget)"), s)
  else
    ((true, "Bid placed successfully!"),
     { s with
        bids := s.bids ++ [{ id := s.next_bid_id, gig_id := gig_id, bidder_id := bidder_id,
                             amount := amount, estimated_time := estimated_time,
                             proposal := proposal, status := "pending" }],
        next_bid_id := s.next_bid_id + 1 })

/-- Source `accept_bid`: looks up the bid and its gig (no status check on either),
creates a task, marks the bid accepted, every other bid on the gig rejected,
and the gig in progress. -/
def accept_bid (s : Store) (bid_id : Nat) : (Bool × String) × Store :=
  match s.bids.find? (fun b => b.id == bid_id) with
  | none => ((false, "Bid not found"), s)
  | some bid =>
    match s.gigs.find? (fun g => g.id == bid.gig_id) with
    | none => ((false, "Gig not found"), s)
    | some gig =>
      ((true, "Bid accepted! Task has started."),
       { s with
          tasks := s.tasks ++ [{ id := s.next_task_id, gig_id := bid.gig_id, bid_id := bid_id,
                                 client_id := gig.user_id, freelancer_id := bid.bidder_id,
                                 amount := bid.amount, status := "in_progress",
                                 client_rating := none, client_review := none }],
          bids := s.bids.map (fun b =>
            if b.id == bid_id then { b with status := "accepted" }
            else if b.gig_id == bid.gig_id then { b with status := "rejected" }
            else b),
          gigs := s.gigs.map (fun g =>
            if g.id == bid.gig_id then { g with status := "in_progress" } else g),
          next_task_id := s.next_task_id + 1 })

/-- Python `rating or 5`: `None` and `0` are falsy, so both default to 5. -/
def ratingOrFive (rating : Option ℚ) : ℚ :=
  match rating with
  | none => 5
  | some r => if r = 0 then 5 else r

/-- The freelancer-stat side effect of completion, mirroring the single SQL
UPDATE: every right-hand side reads the pre-update row, so the running-average
formula divides by the old `completed_tasks` plus one. -/
def statUpdate (freelancer_id : Nat) (amount newRating : ℚ) (u : User) : User :=
  if u.id == freelancer_id then
    { u with
        completed_tasks := u.completed_tasks + 1,
        total_earnings := u.total_earnings + amount,
        rating := (u.rating * u.completed_tasks + newRating) / (u.completed_tasks + 1) }
  else u

/-- Tail of `complete_task` after the role-specific task update `tasks1`: when
the pre-call status was 'pending_review' and the caller is the client, the
stat, portfolio and gig side effects fire. -/
def completeTaskFinish (s : Store) (t : Task) (task_id user_id : Nat) (rating : Option ℚ)
    (tasks1 : List Task) : (Bool × String) × Store :=
  if t.status = "pending_review" ∧ user_id = t.client_id then
    let users1 := s.users.map (statUpdate t.freelancer_id t.amount (ratingOrFive rating))
    let portfolio1 :=
      match tasks1.find? (fun x => x.id == task_id) with
      | some t2 =>
        match s.gigs.find? (fun g => g.id == t2.gig_id) with
        | some g =>
          s.portfolio ++ [{ user_id := t.freelancer_id, task_id := task_id, title := g.title,
                            description := g.description,
                            skills_used := (s.users.find? (fun u => u.id == t.freelancer_id)).map
                              (fun u => u.skills),
                            client_feedback := t2.client_review, rating := t2.client_rating }]
        | none => s.portfolio
      | none => s.portfolio
    let gigs1 := s.gigs.map (fun g => if g.id == t.gig_id then { g with status := "completed" } else g)
    ((true, "Task updated successfully!"),
     { s with tasks := tasks1, users := users1, portfolio := portfolio1, gigs := gigs1 })
  else
    ((true, "Task updated successfully!"), { s with tasks := tasks1 })

/-- Source `complete_task`: authorization check, role-specific task update (client
with a rating writes the rating and review only; client without a rating marks
the task completed; the freelancer moves it to 'pending_review'), then the
conditional side-effect block. -/
def complete_task (s : Store) (task_id user_id : Nat) (rating : Option ℚ)
    (review : Option String) : (Bool × String) × Store :=
  match s.tasks.find? (fun t => t.id == task_id) with
  | none => ((false, "Task not found"), s)
  | some t =>
    if user_id ≠ t.client_id ∧ user_id ≠ t.freelancer_id then
      ((false, "Unauthorized access"), s)
    else if user_id = t.client_id then
      match rating with
      | some r =>
        if r < 1 ∨ 5 < r then
          ((false, "Rating must be between 1 and 5"), s)
        else
          completeTaskFinish s t task_id user_id rating
            (s.tasks.map (fun x =>
              if x.id == task_id then { x with client_rating := some r, client_review := review }
              else x))
      | none =>
        completeTaskFinish s t task_id user_id rating
          (s.tasks.map (fun x => if x.id == task_id then { x with status := "completed" } else x))
    else
      completeTaskFinish s t task_id user_id rating
        (s.tasks.map (fun x => if x.id == task_id then { x with status := "pending_review" } else x))

/-- The store of a fresh database. -/
def emptyStore : Store :=
  { users := [], gigs := [], bids := [], tasks := [], portfolio := [],
    next_gig_id := 1, next_bid_id := 1, next_task_id := 1 }

/-- Store states reachable from a fresh database through the core operations
of the gig app.  User registration only adds user rows and never touches bids,
so it is omitted without loss for bid-level invariants. -/
inductive Reachable : Store → Prop
  | init : Reachable emptyStore
  | create_gig {s} (uid : Nat) (ti de ca bt : String) (ba : ℚ) (ur : String) :
      Reachable s → Reachable (create_gig s uid ti de ca bt ba ur).2
  | update_gig_status {s} (gid : Nat) (st : String) :
      Reachable s → Reachable (update_gig_status s gid st).2
  | place_bid {s} (gid bid : Nat) (a : ℚ) (et pr : String) :
      Reachable s → Reachable (place_bid s gid bid a et pr).2
  | accept_bid {s} (bid : Nat) :
      Reachable s → Reachable (accept_bid s bid).2
  | complete_task {s} (tid uid : Nat) (r : Option ℚ) (rv : Option String) :
      Reachable s → Reachable (complete_task s tid uid r rv).2

end GigApp

namespace GigApp

/-- Number of accepted bids on gig `g`. -/
def acceptedCount (s : Store) (g : Nat) : Nat :=
  s.bids.countP (fun b => b.gig_id == g && b.status == "accepted")

/-- Primary-key discipline of the `bids` table: distinct ids, all below the
autoincrement counter. -/
def BidsWF (s : Store) : Prop :=
  (s.bids.map (fun b => b.id)).Nodup ∧ ∀ b ∈ s.bids, b.id < s.next_bid_id

/-- The spec invariant: at most one accepted bid per gig. -/
def AtMostOneAccepted (s : Store) : Prop :=
  ∀ g : Nat, acceptedCount s g ≤ 1

theorem inv_of_frame {s s' : Store} (hb : s'.bids = s.bids)
    (hn : s'.next_bid_id = s.next_bid_id)
    (h : BidsWF s ∧ AtMostOneAccepted s) : BidsWF s' ∧ AtMostOneAccepted s' := by
  obtain ⟨⟨h1, h2⟩, h3⟩ := h
  refine ⟨⟨?_, ?_⟩, ?_⟩
  · rw [hb]; exact h1
  · rw [hb, hn]; exact h2
  · intro g; unfold acceptedCount; rw [hb]; exact h3 g

theorem completeTaskFinish_frame (s : Store) (t : Task) (tid uid : Nat) (r : Option ℚ)
    (ts1 : List Task) :
    ((completeTaskFinish s t tid uid r ts1).2).bids = s.bids ∧
    ((completeTaskFinish s t tid uid r ts1).2).next_bid_id = s.next_bid_id := by
  unfold completeTaskFinish
  split <;> exact ⟨rfl, rfl⟩

theorem complete_task_frame (s : Store) (tid uid : Nat) (r : Option ℚ) (rv : Option String) :
    ((complete_task s tid uid r rv).2).bids = s.bids ∧
    ((complete_task s tid uid r rv).2).next_bid_id = s.next_bid_id := by
  unfold complete_task
  repeat' split
  all_goals first
    | exact ⟨rfl, rfl⟩
    | exact completeTaskFinish_frame ..

theorem create_gig_frame (s : Store) (uid : Nat) (ti de ca bt : String) (ba : ℚ) (ur : String) :
    ((create_gig s uid ti de ca bt ba ur).2).bids = s.bids ∧
    ((create_gig s uid ti de ca bt ba ur).2).next_bid_id = s.next_bid_id := by
  unfold create_gig
  repeat' split
  all_goals exact ⟨rfl, rfl⟩

theorem update_gig_status_frame (s : Store) (gid : Nat) (st : String) :
    ((update_gig_status s gid st).2).bids = s.bids ∧
    ((update_gig_status s gid st).2).next_bid_id = s.next_bid_id := by
  exact ⟨rfl, rfl⟩

theorem place_bid_inv (s : Store) (gid bidder : Nat) (a : ℚ) (et pr : String)
    (h : BidsWF s ∧ AtMostOneAccepted s) :
    BidsWF (place_bid s gid bidder a et pr).2 ∧
      AtMostOneAccepted (place_bid s gid bidder a et pr).2 := by
  obtain ⟨⟨hnd, hlt⟩, hamo⟩ := h
  unfold place_bid
  split
  · exact ⟨⟨hnd, hlt⟩, hamo⟩
  split
  · exact ⟨⟨hnd, hlt⟩, hamo⟩
  split
  · exact ⟨⟨hnd, hlt⟩, hamo⟩
  refine ⟨⟨?_, ?_⟩, ?_⟩
  · simp only [List.map_append, List.map_cons, List.map_nil]
    rw [List.nodup_append]
    refine ⟨hnd, List.nodup_singleton _, ?_⟩
    intro x hx hx'
    simp only [List.mem_singleton] at hx'
    obtain ⟨b, hb, hbid⟩ := List.mem_map.mp hx
    exact absurd (hbid.trans hx') (Nat.ne_of_lt (hlt b hb))
  · intro b hb
    rcases List.mem_append.mp hb with hb' | hb'
    · exact Nat.lt_succ_of_lt (hlt b hb')
    · simp only [List.mem_singleton] at hb'
      subst hb'
      exact Nat.lt_succ_self _
  · intro g
    unfold acceptedCount
    simp only [List.countP_append, List.countP_singleton]
    have : ((gid == g) && ("pending" == "accepted")) = false := by
      simp
    rw [this]
    simpa using hamo g

end GigApp

namespace GigApp

/-- The bid update performed by a successful `accept_bid` on bid `bid_id`
whose gig is `gid`. -/
def acceptUpdate (bid_id gid : Nat) (b : Bid) : Bid :=
  if b.id == bid_id then { b with status := "accepted" }
  else if b.gig_id == gid then { b with status := "rejected" }
  else b

theorem acceptUpdate_id (bid_id gid : Nat) (b : Bid) : (acceptUpdate bid_id gid b).id = b.id := by
  unfold acceptUpdate
  repeat' split
  all_goals rfl

theorem accept_bid_success_store (s : Store) (bid_id : Nat) (B : Bid) (G : Gig)
    (hb : s.bids.find? (fun b => b.id == bid_id) = some B)
    (hg : s.gigs.find? (fun g => g.id == B.gig_id) = some G) :
    accept_bid s bid_id =
      ((true, "Bid accepted! Task has started."),
       { s with
          tasks := s.tasks ++ [{ id := s.next_task_id, gig_id := B.gig_id, bid_id := bid_id,
                                 client_id := G.user_id, freelancer_id := B.bidder_id,
                                 amount := B.amount, status := "in_progress",
                                 client_rating := none, client_review := none }],
          bids := s.bids.map (acceptUpdate bid_id B.gig_id),
          gigs := s.gigs.map (fun g =>
            if g.id == B.gig_id then { g with status := "in_progress" } else g),
          next_task_id := s.next_task_id + 1 }) := by
  simp only [accept_bid, hb, hg]
  rfl

/-- Counting accepted bids on a gig after a successful acceptance: exactly the
updated bid counts on its own gig, nothing new counts on any other gig. -/
theorem countP_acceptUpdate_le (s : Store) (bid_id : Nat) (B : Bid) (g0 : Nat)
    (hnd : (s.bids.map (fun b => b.id)).Nodup)
    (hb : s.bids.find? (fun b => b.id == bid_id) = some B)
    (hamo : ∀ g : Nat, s.bids.countP (fun b => b.gig_id == g && b.status == "accepted") ≤ 1) :
    (s.bids.map (acceptUpdate bid_id B.gig_id)).countP
      (fun b => b.gig_id == g0 && b.status == "accepted") ≤ 1 := by
  have hBmem : B ∈ s.bids := List.mem_of_find?_eq_some hb
  have hBid : B.id = bid_id := by
    have := List.find?_some hb
    simpa using this
  have hinj : ∀ b ∈ s.bids, b.id = bid_id → b = B := by
    intro b hbm hbid
    exact List.inj_on_of_nodup_map hnd hbm hBmem (by rw [hbid, hBid])
  rw [List.countP_map]
  by_cases hcase : g0 = B.gig_id
  · have hcong : ∀ b ∈ s.bids,
        ((fun b => b.gig_id == g0 && b.status == "accepted") ∘ acceptUpdate bid_id B.gig_id) b = true ↔
          (b.id == bid_id) = true := by
      intro b hbm
      simp only [Function.comp_apply]
      by_cases h1 : (b.id == bid_id) = true
      · have hbB : b = B := hinj b hbm (by simpa using h1)
        subst hbB
        simp [acceptUpdate, h1, hcase]
      · by_cases h2 : (b.gig_id == B.gig_id) = true
        · simp [acceptUpdate, h1, h2]
        · simp [acceptUpdate, h1, h2, hcase]
    rw [List.countP_congr hcong]
    have hc : s.bids.countP (fun b => b.id == bid_id) =
        (s.bids.map (fun b => b.id)).countP (fun i => i == bid_id) := by
      rw [List.countP_map]
      rfl
    rw [hc, ← List.count_eq_countP]
    exact List.nodup_iff_count_le_one.mp hnd bid_id
  · have hmono : ∀ b ∈ s.bids,
        ((fun b => b.gig_id == g0 && b.status == "accepted") ∘ acceptUpdate bid_id B.gig_id) b = true →
          (b.gig_id == g0 && b.status == "accepted") = true := by
      intro b hbm hpb
      simp only [Function.comp_apply] at hpb
      by_cases h1 : (b.id == bid_id) = true
      · have hbB : b = B := hinj b hbm (by simpa using h1)
        subst hbB
        rw [acceptUpdate, if_pos h1] at hpb
        simp only [Bool.and_eq_true, beq_iff_eq] at hpb
        exact absurd hpb.1.symm hcase
      · by_cases h2 : (b.gig_id == B.gig_id) = true
        · rw [acceptUpdate, if_neg h1, if_pos h2] at hpb
          simp at hpb
        · rw [acceptUpdate, if_neg h1, if_neg h2] at hpb
          exact hpb
    exact le_trans (List.countP_mono_left hmono) (hamo g0)

theorem accept_bid_inv (s : Store) (bid_id : Nat)
    (h : BidsWF s ∧ AtMostOneAccepted s) :
    BidsWF (accept_bid s bid_id).2 ∧ AtMostOneAccepted (accept_bid s bid_id).2 := by
  obtain ⟨⟨hnd, hlt⟩, hamo⟩ := h
  cases hb : s.bids.find? (fun b => b.id == bid_id) with
  | none =>
    have hs : (accept_bid s bid_id).2 = s := by
      simp only [accept_bid, hb]
    rw [hs]
    exact ⟨⟨hnd, hlt⟩, hamo⟩
  | some B =>
    cases hg : s.gigs.find? (fun g => g.id == B.gig_id) with
    | none =>
      have hs : (accept_bid s bid_id).2 = s := by
        simp only [accept_bid, hb, hg]
      rw [hs]
      exact ⟨⟨hnd, hlt⟩, hamo⟩
    | some G =>
      rw [accept_bid_success_store s bid_id B G hb hg]
      have hids : (s.bids.map (acceptUpdate bid_id B.gig_id)).map (fun b => b.id) =
          s.bids.map (fun b => b.id) := by
        rw [List.map_map]
        exact List.map_congr_left (fun b _ => acceptUpdate_id bid_id B.gig_id b)
      refine ⟨⟨?_, ?_⟩, ?_⟩
      · show ((s.bids.map (acceptUpdate bid_id B.gig_id)).map (fun b => b.id)).Nodup
        rw [hids]
        exact hnd
      · intro b hbm
        obtain ⟨b0, hb0, rfl⟩ := List.mem_map.mp hbm
        rw [acceptUpdate_id]
        exact hlt b0 hb0
      · intro g0
        exact countP_acceptUpdate_le s bid_id B g0 hnd hb hamo

/-- Every reachable store of the gig app keeps distinct bid ids and at most
one accepted bid per gig. -/
theorem reachable_inv (s : Store) (h : Reachable s) :
    BidsWF s ∧ AtMostOneAccepted s := by
  induction h with
  | init =>
    refine ⟨⟨List.nodup_nil, ?_⟩, ?_⟩
    · intro b hb
      simp [emptyStore] at hb
    · intro g
      simp [acceptedCount, emptyStore]
  | create_gig uid ti de ca bt ba ur _ ih =>
    exact inv_of_frame (create_gig_frame ..).1 (create_gig_frame ..).2 ih
  | update_gig_status gid st _ ih =>
    exact inv_of_frame (update_gig_status_frame ..).1 (update_gig_status_frame ..).2 ih
  | place_bid gid bid a et pr _ ih =>
    exact place_bid_inv _ gid bid a et pr ih
  | accept_bid bid _ ih =>
    exact accept_bid_inv _ bid ih
  | complete_task tid uid r rv _ ih =>
    exact inv_of_frame (complete_task_frame ..).1 (complete_task_frame ..).2 ih

end GigApp

namespace GigApp

theorem completeTaskFinish_fst (s : Store) (t : Task) (tid uid : Nat) (r : Option ℚ)
    (ts1 : List Task) :
    (completeTaskFinish s t tid uid r ts1).1 = (true, "Task updated successfully!") := by
  unfold completeTaskFinish
  split <;> rfl

theorem completeTaskFinish_tasks (s : Store) (t : Task) (tid uid : Nat) (r : Option ℚ)
    (ts1 : List Task) :
    ((completeTaskFinish s t tid uid r ts1).2).tasks = ts1 := by
  unfold completeTaskFinish
  split <;> rfl

theorem completeTaskFinish_users_fire (s : Store) (t : Task) (tid uid : Nat) (r : Option ℚ)
    (ts1 : List Task) (h : t.status = "pending_review" ∧ uid = t.client_id) :
    ((completeTaskFinish s t tid uid r ts1).2).users =
      s.users.map (statUpdate t.freelancer_id t.amount (ratingOrFive r)) := by
  unfold completeTaskFinish
  rw [if_pos h]

theorem completeTaskFinish_portfolio_count (s : Store) (t : Task) (tid uid : Nat)
    (r : Option ℚ) (ts1 : List Task) (t2 : Task) (g : Gig)
    (h : t.status = "pending_review" ∧ uid = t.client_id)
    (h2 : ts1.find? (fun x => x.id == tid) = some t2)
    (hg : s.gigs.find? (fun x => x.id == t2.gig_id) = some g) :
    ((completeTaskFinish s t tid uid r ts1).2).portfolio.length = s.portfolio.length + 1 := by
  unfold completeTaskFinish
  rw [if_pos h]
  simp only [h2, hg]
  simp

/-- Reduction of `complete_task` on the client-with-valid-rating path. -/
theorem complete_task_client_rating (s : Store) (task_id : Nat) (t : Task) (r : ℚ)
    (review : Option String)
    (hfind : s.tasks.find? (fun x => x.id == task_id) = some t)
    (hr1 : 1 ≤ r) (hr5 : r ≤ 5) :
    complete_task s task_id t.client_id (some r) review =
      completeTaskFinish s t task_id t.client_id (some r)
        (s.tasks.map (fun x =>
          if x.id == task_id then { x with client_rating := some r, client_review := review }
          else x)) := by
  unfold complete_task
  rw [hfind]
  show (if t.client_id ≠ t.client_id ∧ t.client_id ≠ t.freelancer_id then _ else _) = _
  rw [if_neg (by simp), if_pos rfl]
  show (if r < 1 ∨ 5 < r then _ else _) = _
  rw [if_neg (by push_neg; exact ⟨hr1, hr5⟩)]

/-- Reduction of `complete_task` on the client-without-rating path. -/
theorem complete_task_client_none (s : Store) (task_id : Nat) (t : Task)
    (review : Option String)
    (hfind : s.tasks.find? (fun x => x.id == task_id) = some t) :
    complete_task s task_id t.client_id none review =
      completeTaskFinish s t task_id t.client_id none
        (s.tasks.map (fun x =>
          if x.id == task_id then { x with status := "completed" } else x)) := by
  unfold complete_task
  rw [hfind]
  show (if t.client_id ≠ t.client_id ∧ t.client_id ≠ t.freelancer_id then _ else _) = _
  rw [if_neg (by simp), if_pos rfl]

theorem ratingOrFive_of_valid {r : ℚ} (hr1 : 1 ≤ r) : ratingOrFive (some r) = r := by
  show (if r = 0 then (5 : ℚ) else r) = r
  rw [if_neg]
  intro h
  rw [h] at hr1
  norm_num at hr1

/-- Lookup by id commutes with an id-preserving row update. -/
theorem find?_map_of_id_pres {α : Type} (l : List α) (idOf : α → Nat) (tid : Nat) (f : α → α)
    (hf : ∀ x, idOf (f x) = idOf x) :
    (l.map f).find? (fun x => idOf x == tid) = (l.find? (fun x => idOf x == tid)).map f := by
  rw [List.find?_map]
  have hpf : ((fun x => idOf x == tid) ∘ f) = (fun x => idOf x == tid) := by
    funext x
    simp [Function.comp, hf]
  rw [hpf]

end GigApp

namespace GigApp

theorem acceptUpdate_gig_id (bid_id gid : Nat) (b : Bid) :
    (acceptUpdate bid_id gid b).gig_id = b.gig_id := by
  unfold acceptUpdate
  repeat' split
  all_goals rfl

theorem acceptUpdate_status_accepted (bid_id gid : Nat) (b : Bid) (h : b.id = bid_id) :
    (acceptUpdate bid_id gid b).status = "accepted" := by
  unfold acceptUpdate
  rw [if_pos (by simp [h])]

theorem acceptUpdate_status_rejected (bid_id gid : Nat) (b : Bid) (h1 : b.id ≠ bid_id)
    (h2 : b.gig_id = gid) :
    (acceptUpdate bid_id gid b).status = "rejected" := by
  unfold acceptUpdate
  rw [if_neg (by simp [h1]), if_pos (by simp [h2])]

/-- After a successful acceptance, exactly one bid on the accepted bid's gig
counts as accepted. -/
theorem countP_acceptUpdate_eq_one (s : Store) (bid_id : Nat) (B : Bid)
    (hnd : (s.bids.map (fun b => b.id)).Nodup)
    (hb : s.bids.find? (fun b => b.id == bid_id) = some B) :
    (s.bids.map (acceptUpdate bid_id B.gig_id)).countP
      (fun b => b.gig_id == B.gig_id && b.status == "accepted") = 1 := by
  have hBmem : B ∈ s.bids := List.mem_of_find?_eq_some hb
  have hBid : B.id = bid_id := by
    have := List.find?_some hb
    simpa using this
  have hinj : ∀ b ∈ s.bids, b.id = bid_id → b = B := by
    intro b hbm hbid
    exact List.inj_on_of_nodup_map hnd hbm hBmem (by rw [hbid, hBid])
  rw [List.countP_map]
  have hcong : ∀ b ∈ s.bids,
      ((fun b => b.gig_id == B.gig_id && b.status == "accepted") ∘
        acceptUpdate bid_id B.gig_id) b = true ↔
        (b.id == bid_id) = true := by
    intro b hbm
    simp only [Function.comp_apply]
    by_cases h1 : (b.id == bid_id) = true
    · have hbB : b = B := hinj b hbm (by simpa using h1)
      subst hbB
      simp [acceptUpdate, h1]
    · by_cases h2 : (b.gig_id == B.gig_id) = true
      · simp [acceptUpdate, h1, h2]
      · simp [acceptUpdate, h1, h2]
  rw [List.countP_congr hcong]
  have hc : s.bids.countP (fun b => b.id == bid_id) =
      (s.bids.map (fun b => b.id)).countP (fun i => i == bid_id) := by
    rw [List.countP_map]
    rfl
  rw [hc, ← List.count_eq_countP]
  exact List.count_eq_one_of_mem hnd (List.mem_map.mpr ⟨B, hBmem, hBid⟩)

/-- Claim C1 (amended): on a store with distinct bid ids, every successful
`accept_bid` call on bid `B` leaves exactly one accepted bid on B's gig
(namely the one with B's id), every other bid on that gig rejected, every row
of that gig in progress, and increases the number of Task rows referencing B
by exactly one (so exactly one Task exists after a first acceptance, but a
repeated acceptance of the same bid adds another Task); and in every
reachable store state at most one bid per gig is accepted. -/
theorem accept_bid_acceptance_protocol :
    (∀ (s : Store) (bid_id : Nat) (B : Bid) (G : Gig),
      (s.bids.map (fun b => b.id)).Nodup →
      s.bids.find? (fun b => b.id == bid_id) = some B →
      s.gigs.find? (fun g => g.id == B.gig_id) = some G →
      (accept_bid s bid_id).1.1 = true ∧
      ((accept_bid s bid_id).2.bids.countP
        (fun b => b.gig_id == B.gig_id && b.status == "accepted")) = 1 ∧
      (∀ b ∈ (accept_bid s bid_id).2.bids, b.id = bid_id → b.status = "accepted") ∧
      (∀ b ∈ (accept_bid s bid_id).2.bids, b.gig_id = B.gig_id → b.id ≠ bid_id →
        b.status = "rejected") ∧
      (∀ g ∈ (accept_bid s bid_id).2.gigs, g.id = B.gig_id → g.status = "in_progress") ∧
      ((accept_bid s bid_id).2.tasks.countP (fun t => t.bid_id == bid_id)) =
        s.tasks.countP (fun t => t.bid_id == bid_id) + 1) ∧
    (∀ s : Store, Reachable s → ∀ g : Nat, acceptedCount s g ≤ 1) := by
  constructor
  · intro s bid_id B G hnd hb hg
    rw [accept_bid_success_store s bid_id B G hb hg]
    refine ⟨rfl, ?_, ?_, ?_, ?_, ?_⟩
    · exact countP_acceptUpdate_eq_one s bid_id B hnd hb
    · intro b hbm hbid
      obtain ⟨b0, hb0, rfl⟩ := List.mem_map.mp hbm
      rw [acceptUpdate_id] at hbid
      exact acceptUpdate_status_accepted _ _ _ hbid
    · intro b hbm hbg hbid
      obtain ⟨b0, hb0, rfl⟩ := List.mem_map.mp hbm
      rw [acceptUpdate_id] at hbid
      rw [acceptUpdate_gig_id] at hbg
      exact acceptUpdate_status_rejected _ _ _ hbid hbg
    · intro g hgm hgid
      obtain ⟨g0, hg0, rfl⟩ := List.mem_map.mp hgm
      by_cases h : (g0.id == B.gig_id) = true
      · rw [if_pos h]
      · rw [if_neg h]
        rw [if_neg h] at hgid
        exact absurd hgid (by simpa using h)
    · show (s.tasks ++ [_]).countP _ = _
      rw [List.countP_append, List.countP_singleton, if_pos (by simp)]
  · intro s h
    exact (reachable_inv s h).2

end GigApp

namespace GigApp

/-- A store with one open gig and two pending bids on it. -/
def bidA : Bid :=
  { id := 1, gig_id := 1, bidder_id := 20, amount := 50, estimated_time := "1 day",
    proposal := "p", status := "pending" }

def bidB : Bid :=
  { id := 2, gig_id := 1, bidder_id := 21, amount := 60, estimated_time := "2 days",
    proposal := "q", status := "pending" }

def gigA : Gig :=
  { id := 1, user_id := 10, title := "logo", description := "design a logo",
    category := "art", budget_type := "fixed", budget_amount := 100, urgency := "low",
    status := "open" }

def storeA : Store :=
  { users := [], gigs := [gigA], bids := [bidA, bidB], tasks := [], portfolio := [],
    next_gig_id := 2, next_bid_id := 3, next_task_id := 1 }

/-- Witness for the amended C1 theorem at a concrete store. -/
theorem accept_bid_acceptance_protocol_witness :
    (accept_bid storeA 1).1.1 = true ∧
    ((accept_bid storeA 1).2.bids.countP
      (fun b => b.gig_id == bidA.gig_id && b.status == "accepted")) = 1 := by
  have h := accept_bid_acceptance_protocol.1 storeA 1 bidA gigA (by decide) (by rfl) (by rfl)
  exact ⟨h.1, h.2.1⟩

/-- The store after bid 1 on gig 1 has already been accepted once. -/
def storeA1 : Store := (accept_bid storeA 1).2

/-- Claim C1 counterexample: `accept_bid` on an already-accepted bid succeeds
again (the gig is no longer open, the bid no longer pending) and afterwards
two Task rows reference the bid, refuting that exactly one Task exists after
every successful call. -/
theorem accept_bid_double_accept_counterexample :
    (accept_bid storeA1 1).1.1 = true ∧
    ((accept_bid storeA1 1).2.tasks.countP (fun t => t.bid_id == 1)) = 2 := by
  decide

/-- Claim C8 counterexample: the gig of bid 1 has status 'in_progress' (not
'open') in `storeA1`, yet `accept_bid` succeeds and creates a further task and
keeps the bid accepted, instead of failing without modification. -/
theorem accept_bid_no_open_check_counterexample :
    ((storeA1.gigs.find? (fun g => g.id == 1)).map (fun g => g.status)) =
      some "in_progress" ∧
    (accept_bid storeA1 1).1.1 = true ∧
    (accept_bid storeA1 1).2.tasks.length = 2 ∧
    (accept_bid storeA1 1).2 ≠ storeA1 := by
  decide

/-- Claim C8 (amended): `accept_bid` validates only that the bid exists and
that the gig row it references exists; it performs no check of the gig's
status.  When the bid is missing or the gig is missing it fails without
modifying the store; when both exist — whatever the gig's status, for example
'in_progress' — it succeeds and appends a new Task referencing the bid. -/
theorem accept_bid_existence_only_validation :
    (∀ (s : Store) (bid_id : Nat),
      s.bids.find? (fun b => b.id == bid_id) = none →
      accept_bid s bid_id = ((false, "Bid not found"), s)) ∧
    (∀ (s : Store) (bid_id : Nat) (B : Bid),
      s.bids.find? (fun b => b.id == bid_id) = some B →
      s.gigs.find? (fun g => g.id == B.gig_id) = none →
      accept_bid s bid_id = ((false, "Gig not found"), s)) ∧
    (∀ (s : Store) (bid_id : Nat) (B : Bid) (G : Gig),
      s.bids.find? (fun b => b.id == bid_id) = some B →
      s.gigs.find? (fun g => g.id == B.gig_id) = some G →
      (accept_bid s bid_id).1.1 = true ∧
      (accept_bid s bid_id).2.tasks =
        s.tasks ++ [{ id := s.next_task_id, gig_id := B.gig_id, bid_id := bid_id,
                      client_id := G.user_id, freelancer_id := B.bidder_id,
                      amount := B.amount, status := "in_progress",
                      client_rating := none, client_review := none }]) := by
  refine ⟨?_, ?_, ?_⟩
  · intro s bid_id hb
    simp only [accept_bid, hb]
  · intro s bid_id B hb hg
    simp only [accept_bid, hb, hg]
  · intro s bid_id B G hb hg
    rw [accept_bid_success_store s bid_id B G hb hg]
    exact ⟨rfl, rfl⟩

/-- Witness for the amended C8 theorem: accepting a pending bid on a gig that
is 'in_progress' succeeds and appends a task. -/
theorem accept_bid_existence_only_validation_witness :
    (accept_bid storeA1 2).1.1 = true ∧
    (accept_bid storeA1 2).2.tasks =
      storeA1.tasks ++ [{ id := storeA1.next_task_id, gig_id := bidB.gig_id, bid_id := 2,
                          client_id := gigA.user_id, freelancer_id := bidB.bidder_id,
                          amount := bidB.amount, status := "in_progress",
                          client_rating := none, client_review := none }] := by
  exact accept_bid_existence_only_validation.2.2 storeA1 2
    { bidB with status := "rejected" } { gigA with status := "in_progress" }
    (by decide) (by decide)

end GigApp

namespace GigApp

/-- Claim C7: `place_bid` rejects — returning failure and leaving the store
unchanged, inserting no bid row — whenever the amount is non-positive, the
bidder already has a bid on the gig, or the gig has a fixed budget and the
amount exceeds 150% of it. -/
theorem place_bid_validation (s : Store) (gig_id bidder_id : Nat) (amount : ℚ)
    (et pr : String)
    (h : amount ≤ 0 ∨
      (∃ b ∈ s.bids, b.gig_id = gig_id ∧ b.bidder_id = bidder_id) ∨
      (∃ g, s.gigs.find? (fun g => g.id == gig_id) = some g ∧ g.budget_type = "fixed" ∧
        g.budget_amount * (3/2 : ℚ) < amount)) :
    (place_bid s gig_id bidder_id amount et pr).1.1 = false ∧
    (place_bid s gig_id bidder_id amount et pr).2 = s := by
  unfold place_bid
  split
  · exact ⟨rfl, rfl⟩
  rename_i h1
  split
  · exact ⟨rfl, rfl⟩
  rename_i h2
  split
  · exact ⟨rfl, rfl⟩
  rename_i h3
  exfalso
  rcases h with h0 | ⟨b, hbm, hbg, hbb⟩ | ⟨g, hg, hfix, hover⟩
  · exact h1 h0
  · apply h2
    rw [List.find?_isSome]
    exact ⟨b, hbm, by simp [hbg, hbb]⟩
  · apply h3
    rw [hg]
    simp [hfix, hover]

/-- Witness for C7: on a fixed-budget gig of 100, a bid of 160 (exceeding
150% of the budget) is rejected and the store is unchanged. -/
theorem place_bid_validation_witness :
    (place_bid storeA 1 30 160 "3 days" "r").1.1 = false ∧
    (place_bid storeA 1 30 160 "3 days" "r").2 = storeA := by
  exact place_bid_validation storeA 1 30 160 "3 days" "r"
    (Or.inr (Or.inr ⟨gigA, by rfl, by rfl, by norm_num [gigA]⟩))

end GigApp

namespace GigApp

theorem taskRatingPatch_id (task_id : Nat) (r : ℚ) (review : Option String) :
    ∀ x : Task, (if (x.id == task_id) = true
      then { x with client_rating := some r, client_review := review } else x).id = x.id := by
  intro x
  by_cases hx : (x.id == task_id) = true
  · rw [if_pos hx]
  · rw [if_neg hx]

theorem taskStatusPatch_id (task_id : Nat) (st : String) :
    ∀ x : Task, (if (x.id == task_id) = true
      then { x with status := st } else x).id = x.id := by
  intro x
  by_cases hx : (x.id == task_id) = true
  · rw [if_pos hx]
  · rw [if_neg hx]

theorem complete_task_rating_find (s : Store) (task_id : Nat) (t : Task) (r : ℚ)
    (review : Option String)
    (hfind : s.tasks.find? (fun x => x.id == task_id) = some t)
    (hr1 : 1 ≤ r) (hr5 : r ≤ 5) :
    (complete_task s task_id t.client_id (some r) review).2.tasks.find?
      (fun x => x.id == task_id) =
      some { t with client_rating := some r, client_review := review } := by
  rw [complete_task_client_rating s task_id t r review hfind hr1 hr5,
    completeTaskFinish_tasks,
    find?_map_of_id_pres s.tasks Task.id task_id _ (taskRatingPatch_id task_id r review),
    hfind]
  have ht : (t.id == task_id) = true := by
    have := List.find?_some hfind
    simpa using this
  simp only [Option.map_some']
  rw [if_pos ht]

theorem complete_task_rating_users (s : Store) (task_id : Nat) (t : Task) (r : ℚ)
    (review : Option String)
    (hfind : s.tasks.find? (fun x => x.id == task_id) = some t)
    (hstat : t.status = "pending_review")
    (hr1 : 1 ≤ r) (hr5 : r ≤ 5) :
    (complete_task s task_id t.client_id (some r) review).2.users =
      s.users.map (statUpdate t.freelancer_id t.amount r) := by
  rw [complete_task_client_rating s task_id t r review hfind hr1 hr5,
    completeTaskFinish_users_fire _ _ _ _ _ _ ⟨hstat, rfl⟩,
    ratingOrFive_of_valid hr1]

theorem complete_task_none_find (s : Store) (task_id : Nat) (t : Task)
    (review : Option String)
    (hfind : s.tasks.find? (fun x => x.id == task_id) = some t) :
    (complete_task s task_id t.client_id none review).2.tasks.find?
      (fun x => x.id == task_id) = some { t with status := "completed" } := by
  rw [complete_task_client_none s task_id t review hfind,
    completeTaskFinish_tasks,
    find?_map_of_id_pres s.tasks Task.id task_id _ (taskStatusPatch_id task_id "completed"),
    hfind]
  have ht : (t.id == task_id) = true := by
    have := List.find?_some hfind
    simpa using this
  simp only [Option.map_some']
  rw [if_pos ht]

/-- Claim C6: when the client completes a 'pending_review' task, the stat
side effect succeeds and rewrites exactly the freelancer rows with
`completed_tasks + 1`, `total_earnings + amount`, and the running average
`(old_rating * old_completed + new_rating) / (old_completed + 1)` — the
formula reads the pre-increment completed count — where the new rating
defaults to 5 when the client completes without supplying one. -/
theorem complete_task_rating_formula (s : Store) (task_id : Nat) (t : Task)
    (rating : Option ℚ) (review : Option String)
    (hfind : s.tasks.find? (fun x => x.id == task_id) = some t)
    (hstat : t.status = "pending_review")
    (hr : match rating with | none => True | some r => 1 ≤ r ∧ r ≤ 5) :
    (complete_task s task_id t.client_id rating review).1.1 = true ∧
    (complete_task s task_id t.client_id rating review).2.users =
      s.users.map (fun u =>
        if u.id == t.freelancer_id then
          { u with
              completed_tasks := u.completed_tasks + 1,
              total_earnings := u.total_earnings + t.amount,
              rating := (u.rating * u.completed_tasks +
                  (match rating with | none => (5 : ℚ) | some r => r)) /
                (u.completed_tasks + 1) }
        else u) := by
  cases rating with
  | none =>
    rw [complete_task_client_none s task_id t review hfind]
    constructor
    · rw [completeTaskFinish_fst]
    · rw [completeTaskFinish_users_fire _ _ _ _ _ _ ⟨hstat, rfl⟩]
      rfl
  | some r =>
    rw [complete_task_client_rating s task_id t r review hfind hr.1 hr.2]
    constructor
    · rw [completeTaskFinish_fst]
    · rw [completeTaskFinish_users_fire _ _ _ _ _ _ ⟨hstat, rfl⟩,
        ratingOrFive_of_valid hr.1]
      rfl

/-- Claim C9: a client review with a valid rating on a 'pending_review' task
writes the rating and review and fires the stat side effects, but leaves the
task's status at 'pending_review'; the status becomes 'completed' only when
the client completes without a rating. -/
theorem complete_task_status_frame (s : Store) (task_id : Nat) (t : Task)
    (review : Option String) (r : ℚ)
    (hfind : s.tasks.find? (fun x => x.id == task_id) = some t)
    (hstat : t.status = "pending_review")
    (hr1 : 1 ≤ r) (hr5 : r ≤ 5) :
    ((complete_task s task_id t.client_id (some r) review).2.tasks.find?
        (fun x => x.id == task_id) =
      some { t with client_rating := some r, client_review := review }) ∧
    Task.status { t with client_rating := some r, client_review := review } =
      "pending_review" ∧
    (complete_task s task_id t.client_id (some r) review).2.users =
      s.users.map (statUpdate t.freelancer_id t.amount r) ∧
    ((complete_task s task_id t.client_id none review).2.tasks.find?
        (fun x => x.id == task_id) =
      some { t with status := "completed" }) := by
  refine ⟨?_, ?_, ?_, ?_⟩
  · exact complete_task_rating_find s task_id t r review hfind hr1 hr5
  · exact hstat
  · exact complete_task_rating_users s task_id t r review hfind hstat hr1 hr5
  · exact complete_task_none_find s task_id t review hfind

end GigApp

namespace GigApp

/-- Claim C2 (amended): the reference behavior is not idempotent — the
client-with-rating path leaves the task in 'pending_review', so invoking the
client completion step twice fires the stat side effects twice: the users
table is rewritten by the stat update two times, incrementing the completed
count by 2 and the earnings by twice the task amount for the freelancer. -/
theorem complete_task_double_fire (s : Store) (task_id : Nat) (t : Task) (r : ℚ)
    (review : Option String)
    (hfind : s.tasks.find? (fun x => x.id == task_id) = some t)
    (hstat : t.status = "pending_review")
    (hr1 : 1 ≤ r) (hr5 : r ≤ 5) :
    (complete_task (complete_task s task_id t.client_id (some r) review).2
        task_id t.client_id (some r) review).2.users =
      (s.users.map (statUpdate t.freelancer_id t.amount r)).map
        (statUpdate t.freelancer_id t.amount r) ∧
    (∀ u : User, u.id = t.freelancer_id →
      (statUpdate t.freelancer_id t.amount r
          (statUpdate t.freelancer_id t.amount r u)).completed_tasks =
        u.completed_tasks + 2 ∧
      (statUpdate t.freelancer_id t.amount r
          (statUpdate t.freelancer_id t.amount r u)).total_earnings =
        u.total_earnings + t.amount + t.amount) := by
  constructor
  · have h1f := complete_task_rating_find s task_id t r review hfind hr1 hr5
    have h1u := complete_task_rating_users s task_id t r review hfind hstat hr1 hr5
    have h2u := complete_task_rating_users
      (complete_task s task_id t.client_id (some r) review).2 task_id
      { t with client_rating := some r, client_review := review } r review h1f hstat hr1 hr5
    rw [h1u] at h2u
    exact h2u
  · intro u hu
    have hid : (statUpdate t.freelancer_id t.amount r u).id = u.id := by
      unfold statUpdate
      split <;> rfl
    constructor
    · unfold statUpdate
      rw [if_pos (by simp [hid, hu]), if_pos (by simp [hu])]
    · unfold statUpdate
      rw [if_pos (by simp [hid, hu]), if_pos (by simp [hu])]

end GigApp

namespace GigApp

def userF : User :=
  { id := 2, username := "fred", skills := "paint", rating := 4, completed_tasks := 1,
    total_earnings := 10 }

def taskC : Task :=
  { id := 1, gig_id := 1, bid_id := 1, client_id := 1, freelancer_id := 2, amount := 100,
    status := "pending_review", client_rating := none, client_review := none }

def gigC : Gig :=
  { id := 1, user_id := 1, title := "mural", description := "paint a mural",
    category := "art", budget_type := "fixed", budget_amount := 120, urgency := "high",
    status := "in_progress" }

/-- A store with one task awaiting client review. -/
def storeC : Store :=
  { users := [userF], gigs := [gigC], bids := [], tasks := [taskC], portfolio := [],
    next_gig_id := 2, next_bid_id := 1, next_task_id := 2 }

def storeC1 : Store := (complete_task storeC 1 1 (some 3) (some "ok")).2

def storeC2 : Store := (complete_task storeC1 1 1 (some 3) (some "ok")).2

/-- Claim C2 counterexample: the client confirms twice with a rating on a
'pending_review' task; the second call increments the completed count and the
earnings again and adds a second portfolio row, so the double invocation does
not leave the freelancer stats and portfolio identical to a single one. -/
theorem complete_task_not_idempotent_counterexample :
    storeC1.users.map (fun u => u.completed_tasks) = [2] ∧
    storeC2.users.map (fun u => u.completed_tasks) = [3] ∧
    storeC1.portfolio.length = 1 ∧ storeC2.portfolio.length = 2 := by
  decide

/-- Witness for the amended C2 theorem at a concrete store. -/
theorem complete_task_double_fire_witness :
    (complete_task (complete_task storeC 1 taskC.client_id (some 3) (some "ok")).2
        1 taskC.client_id (some 3) (some "ok")).2.users =
      (storeC.users.map (statUpdate taskC.freelancer_id taskC.amount 3)).map
        (statUpdate taskC.freelancer_id taskC.amount 3) :=
  (complete_task_double_fire storeC 1 taskC 3 (some "ok") rfl rfl (by norm_num)
    (by norm_num)).1

/-- Witness for the C6 theorem: rating 3 on a freelancer with old rating 4
over 1 completed task yields (4*1+3)/(1+1). -/
theorem complete_task_rating_formula_witness :
    (complete_task storeC 1 taskC.client_id (some 3) (some "ok")).1.1 = true ∧
    (complete_task storeC 1 taskC.client_id (some 3) (some "ok")).2.users =
      storeC.users.map (fun u =>
        if u.id == taskC.freelancer_id then
          { u with
              completed_tasks := u.completed_tasks + 1,
              total_earnings := u.total_earnings + taskC.amount,
              rating := (u.rating * u.completed_tasks +
                  (match (some (3 : ℚ)) with | none => (5 : ℚ) | some r => r)) /
                (u.completed_tasks + 1) }
        else u) :=
  complete_task_rating_formula storeC 1 taskC (some 3) (some "ok") rfl rfl (by norm_num)

/-- Witness for the C9 theorem at a concrete store. -/
theorem complete_task_status_frame_witness :
    ((complete_task storeC 1 taskC.client_id (some 4) (some "good")).2.tasks.find?
        (fun x => x.id == 1) =
      some { taskC with client_rating := some 4, client_review := some "good" }) ∧
    Task.status { taskC with client_rating := some 4, client_review := some "good" } =
      "pending_review" ∧
    (complete_task storeC 1 taskC.client_id (some 4) (some "good")).2.users =
      storeC.users.map (statUpdate taskC.freelancer_id taskC.amount 4) ∧
    ((complete_task storeC 1 taskC.client_id none (some "good")).2.tasks.find?
        (fun x => x.id == 1) =
      some { taskC with status := "completed" }) :=
  complete_task_status_frame storeC 1 taskC (some "good") 4 rfl rfl (by norm_num)
    (by norm_num)

end GigApp

namespace ItemApp

/-- Row of the `users` table of the item app (columns used by the core).
`rating` is NULL-able (`user_rating or 0` in the source). -/
structure User where
  id : Nat
  username : String
  rating : Option ℚ
deriving DecidableEq, Repr

/-- Row of the `items` table (image blob omitted). -/
structure Item where
  id : Nat
  user_id : Nat
  title : String
  description : String
  price : ℚ
  category : String
  condition : String
  location : String
  tags : String
  available_for : String
  status : String
deriving DecidableEq, Repr

/-- Row of the `transactions` table (date columns omitted). -/
structure Transaction where
  id : Nat
  item_id : Nat
  requested_by : Nat
  type : String
  status : String
  matched_item_id : Option Nat
deriving DecidableEq, Repr

/-- The persisted record store of the item app.  The item list stands in
most-recent-first order, matching the candidate query's ORDER BY
created_at DESC. -/
structure Store where
  users : List User
  items : List Item
  transactions : List Transaction
deriving DecidableEq, Repr

/-- One entry of the `find_matches` result.  It mirrors the result dict; the
owner (`user_id`, from the selected `i.*` row) is kept so that ownership of a
returned match is expressible. -/
structure ScoredMatch where
  id : Nat
  title : String
  price : ℚ
  category : String
  condition : String
  username : String
  user_rating : ℚ
  match_score : Nat
  type : String
  available_for : String
  user_id : Nat
deriving DecidableEq, Repr

/-- Category factor: +40 on case-sensitive string equality. -/
def categoryScore (c1 c2 : String) : Nat :=
  if c1 = c2 then 40 else 0

/-- Price factor.  The source computes `abs(p1-p2) / max(p1,p2)` with no
guard: when the maximum is 0 (both prices 0) the Python division raises
ZeroDivisionError, modelled as `none`. -/
def priceScore (p1 p2 : ℚ) : Option Nat :=
  if max p1 p2 = 0 then none
  else
    let d := |p1 - p2| / max p1 p2
    if d ≤ 1/5 then some 30 else if d ≤ 1/2 then some 15 else some 0

/-- First comma-separated token of a location, trimmed and lowercased. -/
def firstLocToken (s : String) : String :=
  ((s.splitOn ",").headD "").trim.toLower

/-- Location factor: +20 when both locations are non-empty (Python
truthiness) and their first tokens agree. -/
def locationScore (l1 l2 : String) : Nat :=
  if l1 ≠ "" ∧ l2 ≠ "" then
    if firstLocToken l1 = firstLocToken l2 then 20 else 0
  else 0

/-- Tag set: split on commas, trim, lowercase, deduplicate. -/
def tagList (s : String) : List String :=
  ((s.splitOn ",").map (fun t => t.trim.toLower)).dedup

/-- Tag factor: 5 per common tag, capped at 10, when both fields are
non-empty and the intersection is non-empty. -/
def tagScore (t1 t2 : String) : Nat :=
  if t1 ≠ "" ∧ t2 ≠ "" then
    if (tagList t1).filter (fun x => (tagList t2).contains x) ≠ [] then
      min (((tagList t1).filter (fun x => (tagList t2).contains x)).length * 5) 10
    else 0
  else 0

/-- Transaction-type inference with the intentional 'rental' fallback. -/
def transType (a1 a2 : String) : String :=
  if (a1 = "rental" ∨ a1 = "both") ∧ (a2 = "rental" ∨ a2 = "both") then "rental"
  else if (a1 = "barter" ∨ a1 = "both") ∧ (a2 = "barter" ∨ a2 = "both") then "barter"
  else "rental"

/-- Total weighted score of a candidate, `none` when the price factor
raises. -/
def scoreItem (item cand : Item) : Option Nat :=
  (priceScore item.price cand.price).map (fun ps =>
    categoryScore item.category cand.category + ps +
    locationScore item.location cand.location + tagScore item.tags cand.tags)

/-- The result record built for a retained candidate. -/
def mkMatch (item : Item) (c : Item) (u : User) (score : Nat) : ScoredMatch :=
  { id := c.id, title := c.title, price := c.price, category := c.category,
    condition := c.condition, username := u.username,
    user_rating := u.rating.getD 0, match_score := min score 100,
    type := transType item.available_for c.available_for,
    available_for := c.available_for, user_id := c.user_id }

/-- The SQL candidate query: items joined with their owners, excluding the
source owner's and the requesting user's items and non-available items, in
stored (most-recent-first) order. -/
def candidatePool (s : Store) (item : Item) (current_user_id : Nat) :
    List (Item × User) :=
  (s.items.filter (fun i =>
    i.user_id != item.user_id && i.status == "available" &&
      i.user_id != current_user_id)).filterMap
    (fun i => (s.users.find? (fun u => u.id == i.user_id)).map (fun u => (i, u)))

/-- Scoring of the whole pool; `none` as soon as any candidate raises. -/
def scoredPool (item : Item) (pool : List (Item × User)) :
    Option (List (Nat × ScoredMatch)) :=
  pool.mapM (fun cu => (scoreItem item cu.1).map (fun sc => (sc, mkMatch item cu.1 cu.2 sc)))

/-- Candidates meeting the ≥30 threshold, in pool order.  A scoring exception
empties the result: the enclosing handler returns the empty list. -/
def thresholded (item : Item) (pool : List (Item × User)) : List ScoredMatch :=
  match scoredPool item pool with
  | none => []
  | some l => (l.filter (fun p => 30 ≤ p.1)).map (fun p => p.2)

/-- Stable descending insertion by score, mirroring Python's stable
`sorted(..., reverse=True)`: an inserted element goes before the first
element whose score is not larger, i.e. before later-pool ties. -/
def insertByScore (x : ScoredMatch) : List ScoredMatch → List ScoredMatch
  | [] => [x]
  | y :: ys =>
    if x.match_score < y.match_score then y :: insertByScore x ys else x :: y :: ys

def sortByScoreDesc : List ScoredMatch → List ScoredMatch
  | [] => []
  | x :: xs => insertByScore x (sortByScoreDesc xs)

/-- Core of `find_matches` once the source item and the pool are fixed. -/
def find_matches_core (item : Item) (pool : List (Item × User)) : List ScoredMatch :=
  (sortByScoreDesc (thresholded item pool)).take 5

/-- Source `find_matches`: empty when the source item is missing, else the top five
threshold-passing candidates in stable descending score order. -/
def find_matches (s : Store) (item_id current_user_id : Nat) : List ScoredMatch :=
  match s.items.find? (fun i => i.id == item_id) with
  | none => []
  | some item => find_matches_core item (candidatePool s item current_user_id)

/-- Source `update_transaction_status`: unconditional status write; when the new
status is 'completed' or 'cancelled' the referenced item is re-opened. -/
def update_transaction_status (s : Store) (transaction_id : Nat) (status : String) :
    Bool × Store :=
  let transactions1 := s.transactions.map (fun t =>
    if t.id == transaction_id then { t with status := status } else t)
  if status = "completed" ∨ status = "cancelled" then
    match transactions1.find? (fun t => t.id == transaction_id) with
    | some t =>
      (true, { s with transactions := transactions1,
                      items := s.items.map (fun i =>
                        if i.id == t.item_id then { i with status := "available" } else i) })
    | none => (true, { s with transactions := transactions1 })
  else (true, { s with transactions := transactions1 })

end ItemApp

namespace ItemApp

/-- Claim C10: when no item row has the requested id, `find_matches` returns
the empty list instead of raising or signalling an error. -/
theorem find_matches_missing_item (s : Store) (item_id current_user_id : Nat)
    (h : s.items.find? (fun i => i.id == item_id) = none) :
    find_matches s item_id current_user_id = [] := by
  simp only [find_matches, h]

def emptyItemStore : Store :=
  { users := [], items := [], transactions := [] }

/-- Witness for C10 on a store with no items at all. -/
theorem find_matches_missing_item_witness :
    emptyItemStore.items.find? (fun i => i.id == 7) = none ∧
    find_matches emptyItemStore 7 99 = [] :=
  ⟨rfl, find_matches_missing_item emptyItemStore 7 99 rfl⟩

theorem update_transaction_status_transactions (s : Store) (tid : Nat) (status : String) :
    (update_transaction_status s tid status).2.transactions =
      s.transactions.map (fun t => if t.id == tid then { t with status := status } else t) := by
  unfold update_transaction_status
  dsimp only
  split
  · split <;> rfl
  · rfl

/-- Claim C3 (amended): `update_transaction_status` performs no transition
validation at all: every call — whatever the current and the requested
status — reports success and overwrites the transaction's status with the
requested value; when the new status is 'completed' or 'cancelled' it also
resets the referenced item's status to 'available'.  No InvalidTransition
failure path exists. -/
theorem update_transaction_status_unconditional (s : Store) (tid : Nat) (status : String) :
    (update_transaction_status s tid status).1 = true ∧
    (update_transaction_status s tid status).2.transactions =
      s.transactions.map (fun t => if t.id == tid then { t with status := status } else t) ∧
    ((status = "completed" ∨ status = "cancelled") →
      ∀ t, (update_transaction_status s tid status).2.transactions.find?
          (fun t => t.id == tid) = some t →
        (update_transaction_status s tid status).2.items =
          s.items.map (fun i =>
            if i.id == t.item_id then { i with status := "available" } else i)) := by
  refine ⟨?_, update_transaction_status_transactions s tid status, ?_⟩
  · unfold update_transaction_status
    dsimp only
    split
    · split <;> rfl
    · rfl
  · intro hcond t hfind
    rw [update_transaction_status_transactions] at hfind
    unfold update_transaction_status
    dsimp only
    rw [if_pos hcond, hfind]

def txA : Transaction :=
  { id := 1, item_id := 1, requested_by := 2, type := "rental", status := "completed",
    matched_item_id := none }

def itemA : Item :=
  { id := 1, user_id := 3, title := "drill", description := "a cordless drill", price := 50,
    category := "Tools", condition := "good", location := "Boston, MA",
    tags := "drill,cordless", available_for := "rental", status := "rented" }

def storeT : Store :=
  { users := [], items := [itemA], transactions := [txA] }

/-- Claim C3 counterexample: the transition completed → pending is not among
the legal ones, yet the call reports success and the stored status becomes
'pending' — the illegal transition is applied silently rather than failing
with InvalidTransition and leaving the status unchanged. -/
theorem update_transaction_status_illegal_applied_counterexample :
    (update_transaction_status storeT 1 "pending").1 = true ∧
    ((update_transaction_status storeT 1 "pending").2.transactions.map
      (fun t => t.status)) = ["pending"] := by
  decide

/-- Witness for the amended C3 theorem: completing transaction 1 succeeds,
writes the status and re-opens item 1. -/
theorem update_transaction_status_unconditional_witness :
    (update_transaction_status storeT 1 "completed").1 = true ∧
    (update_transaction_status storeT 1 "completed").2.items =
      storeT.items.map (fun i =>
        if i.id == txA.item_id then { i with status := "available" } else i) := by
  have h := update_transaction_status_unconditional storeT 1 "completed"
  exact ⟨h.1, h.2.2 (Or.inl rfl) txA (by decide)⟩

end ItemApp
namespace ItemApp

theorem mem_insertByScore {x y : ScoredMatch} {l : List ScoredMatch} :
    y ∈ insertByScore x l ↔ y = x ∨ y ∈ l := by
  induction l with
  | nil => simp [insertByScore]
  | cons z zs ih =>
    rw [insertByScore]
    split
    · simp only [List.mem_cons, ih]
      try tauto
    · simp only [List.mem_cons]
      try tauto

theorem sorted_insertByScore {x : ScoredMatch} {l : List ScoredMatch}
    (h : l.Pairwise (fun a b => b.match_score ≤ a.match_score)) :
    (insertByScore x l).Pairwise (fun a b => b.match_score ≤ a.match_score) := by
  induction l with
  | nil => simp [insertByScore]
  | cons z zs ih =>
    rw [List.pairwise_cons] at h
    obtain ⟨hz, hzs⟩ := h
    rw [insertByScore]
    split
    · rename_i hlt
      rw [List.pairwise_cons]
      refine ⟨?_, ih hzs⟩
      intro a ha
      rcases mem_insertByScore.mp ha with rfl | ha
      · exact le_of_lt hlt
      · exact hz a ha
    · rename_i hge
      push_neg at hge
      rw [List.pairwise_cons]
      refine ⟨?_, List.pairwise_cons.mpr ⟨hz, hzs⟩⟩
      intro a ha
      rcases List.mem_cons.mp ha with rfl | ha
      · exact hge
      · exact le_trans (hz a ha) hge

theorem sorted_sortByScoreDesc (l : List ScoredMatch) :
    (sortByScoreDesc l).Pairwise (fun a b => b.match_score ≤ a.match_score) := by
  induction l with
  | nil => exact List.Pairwise.nil
  | cons x xs ih =>
    rw [sortByScoreDesc]
    exact sorted_insertByScore ih

theorem mem_sortByScoreDesc {y : ScoredMatch} {l : List ScoredMatch} :
    y ∈ sortByScoreDesc l ↔ y ∈ l := by
  induction l with
  | nil => rfl
  | cons x xs ih =>
    rw [sortByScoreDesc, mem_insertByScore, List.mem_cons, ih]

/-- Inserting into a descending-sorted list commutes with filtering one score
level: the new element lands in front of its ties. -/
theorem filter_insertByScore (x : ScoredMatch) (l : List ScoredMatch) (sc : Nat)
    (hl : l.Pairwise (fun a b => b.match_score ≤ a.match_score)) :
    (insertByScore x l).filter (fun m => m.match_score == sc) =
      if (x.match_score == sc) = true
      then x :: l.filter (fun m => m.match_score == sc)
      else l.filter (fun m => m.match_score == sc) := by
  induction l with
  | nil =>
    rw [insertByScore, List.filter_cons]
  | cons z zs ih =>
    rw [List.pairwise_cons] at hl
    obtain ⟨hz, hzs⟩ := hl
    rw [insertByScore]
    split
    · rename_i hlt
      rw [List.filter_cons, List.filter_cons, ih hzs]
      by_cases hzsc : (z.match_score == sc) = true
      · have hxsc : (x.match_score == sc) = false := by
          rw [beq_iff_eq] at hzsc
          rw [beq_eq_false_iff_ne]
          intro hx
          rw [hx, ← hzsc] at hlt
          exact lt_irrefl _ hlt
        rw [hxsc, hzsc]
        try simp
      · rw [Bool.not_eq_true] at hzsc
        rw [hzsc]
        try simp
    · rw [List.filter_cons]

/-- The stable sort preserves, score level by score level, the original
order: filtering the sorted list at any score gives the filtered input. -/
theorem filter_sortByScoreDesc (l : List ScoredMatch) (sc : Nat) :
    (sortByScoreDesc l).filter (fun m => m.match_score == sc) =
      l.filter (fun m => m.match_score == sc) := by
  induction l with
  | nil => rfl
  | cons x xs ih =>
    rw [sortByScoreDesc, filter_insertByScore x _ sc (sorted_sortByScoreDesc xs),
      List.filter_cons, ih]

end ItemApp

namespace ItemApp

theorem find_matches_of_none (s : Store) (item_id uid : Nat)
    (h : s.items.find? (fun i => i.id == item_id) = none) :
    find_matches s item_id uid = [] := by
  simp only [find_matches, h]

theorem find_matches_of_some (s : Store) (item_id uid : Nat) (src : Item)
    (h : s.items.find? (fun i => i.id == item_id) = some src) :
    find_matches s item_id uid = find_matches_core src (candidatePool s src uid) := by
  simp only [find_matches, h]

theorem scoredPool_mem (item : Item) (pool : List (Item × User))
    (l : List (Nat × ScoredMatch)) (h : scoredPool item pool = some l) :
    ∀ p ∈ l, ∃ cu ∈ pool, scoreItem item cu.1 = some p.1 ∧
      p.2 = mkMatch item cu.1 cu.2 p.1 := by
  induction pool generalizing l with
  | nil =>
    simp only [scoredPool, List.mapM_nil, Option.pure_def, Option.some.injEq] at h
    subst h
    intro p hp
    simp at hp
  | cons cu cus ih =>
    rw [scoredPool, List.mapM_cons] at h
    simp only [Option.pure_def, Option.bind_eq_bind, Option.bind_eq_some,
      Option.map_eq_some', Option.some.injEq] at h
    obtain ⟨b, ⟨sc, hsc, hb⟩, l2, hl2, rfl⟩ := h
    intro p hp
    rcases List.mem_cons.mp hp with rfl | hp
    · subst hb
      exact ⟨cu, List.mem_cons_self cu cus, hsc, rfl⟩
    · obtain ⟨cu2, hcu2, hsc2, hp2⟩ := ih l2 hl2 p hp
      exact ⟨cu2, List.mem_cons_of_mem cu hcu2, hsc2, hp2⟩

theorem mem_thresholded (item : Item) (pool : List (Item × User)) (m : ScoredMatch)
    (hm : m ∈ thresholded item pool) :
    ∃ cu ∈ pool, ∃ sc, scoreItem item cu.1 = some sc ∧ 30 ≤ sc ∧
      m = mkMatch item cu.1 cu.2 sc := by
  unfold thresholded at hm
  cases h : scoredPool item pool with
  | none =>
    rw [h] at hm
    simp at hm
  | some l =>
    rw [h] at hm
    simp only at hm
    obtain ⟨p, hp, rfl⟩ := List.mem_map.mp hm
    have hpf := List.mem_filter.mp hp
    obtain ⟨cu, hcu, hsc, hp2⟩ := scoredPool_mem item pool l h p hpf.1
    exact ⟨cu, hcu, p.1, hsc, by simpa using hpf.2, hp2⟩

theorem mem_candidatePool (s : Store) (item : Item) (uid : Nat) (cu : Item × User)
    (h : cu ∈ candidatePool s item uid) :
    cu.1 ∈ s.items ∧ cu.1.user_id ≠ item.user_id ∧ cu.1.status = "available" ∧
      cu.1.user_id ≠ uid := by
  unfold candidatePool at h
  obtain ⟨i, hi, hgi⟩ := List.mem_filterMap.mp h
  obtain ⟨u, _, hui⟩ := Option.map_eq_some'.mp hgi
  have hif := List.mem_filter.mp hi
  have hconds := hif.2
  simp only [Bool.and_eq_true, bne_iff_ne, beq_iff_eq] at hconds
  rw [← hui]
  exact ⟨hif.1, hconds.1.1, hconds.1.2, hconds.2⟩

end ItemApp

namespace ItemApp

/-- Claim C5: `find_matches` returns at most five results, sorted descending
by score with ties kept in candidate-pool (recency) order, every result
passing the ≥30 threshold with a score capped at 100, and every result
stemming from an available item owned neither by the source owner nor by the
requesting user. -/
theorem find_matches_output_spec (s : Store) (item_id uid : Nat) :
    (find_matches s item_id uid).length ≤ 5 ∧
    (find_matches s item_id uid).Pairwise (fun a b => b.match_score ≤ a.match_score) ∧
    ∀ src, s.items.find? (fun i => i.id == item_id) = some src →
      (∀ m ∈ find_matches s item_id uid,
        30 ≤ m.match_score ∧ m.match_score ≤ 100 ∧
        ∃ c ∈ s.items, c.id = m.id ∧ c.user_id = m.user_id ∧
          c.user_id ≠ src.user_id ∧ c.user_id ≠ uid ∧ c.status = "available") ∧
      ∀ sc : Nat,
        ((find_matches s item_id uid).filter (fun m => m.match_score == sc)).Sublist
          ((thresholded src (candidatePool s src uid)).filter
            (fun m => m.match_score == sc)) := by
  refine ⟨?_, ?_, ?_⟩
  · cases h : s.items.find? (fun i => i.id == item_id) with
    | none =>
      rw [find_matches_of_none s item_id uid h]
      simp
    | some src =>
      rw [find_matches_of_some s item_id uid src h]
      unfold find_matches_core
      rw [List.length_take]
      exact min_le_left _ _
  · cases h : s.items.find? (fun i => i.id == item_id) with
    | none =>
      rw [find_matches_of_none s item_id uid h]
      exact List.Pairwise.nil
    | some src =>
      rw [find_matches_of_some s item_id uid src h]
      exact List.Pairwise.sublist (List.take_sublist 5 _) (sorted_sortByScoreDesc _)
  · intro src hsrc
    constructor
    · intro m hm
      rw [find_matches_of_some s item_id uid src hsrc] at hm
      have hm1 : m ∈ sortByScoreDesc (thresholded src (candidatePool s src uid)) :=
        List.mem_of_mem_take hm
      have hm2 : m ∈ thresholded src (candidatePool s src uid) :=
        mem_sortByScoreDesc.mp hm1
      obtain ⟨cu, hcu, sc, hsc, h30, rfl⟩ :=
        mem_thresholded src (candidatePool s src uid) m hm2
      obtain ⟨hci, hcown, hcav, hcuid⟩ := mem_candidatePool s src uid cu hcu
      refine ⟨le_min h30 (by norm_num), min_le_right _ _, cu.1, hci, rfl, rfl, hcown, hcuid, hcav⟩
    · intro sc
      rw [find_matches_of_some s item_id uid src hsrc]
      have h1 := (List.take_sublist 5
        (sortByScoreDesc (thresholded src (candidatePool s src uid)))).filter
        (fun m => m.match_score == sc)
      rw [filter_sortByScoreDesc] at h1
      exact h1

end ItemApp

namespace ItemApp

def ownerZ : User := { id := 1, username := "alice", rating := some 5 }

def userZ2 : User := { id := 2, username := "bob", rating := some 4 }

def userZ3 : User := { id := 3, username := "carol", rating := none }

/-- A zero-priced source item. -/
def srcZ : Item :=
  { id := 1, user_id := 1, title := "free tripod", description := "give away", price := 0,
    category := "Tools", condition := "good", location := "", tags := "",
    available_for := "rental", status := "available" }

/-- A zero-priced candidate: scoring it against `srcZ` divides by zero. -/
def candZero : Item :=
  { id := 2, user_id := 2, title := "free clamp", description := "give away", price := 0,
    category := "Tools", condition := "fair", location := "", tags := "",
    available_for := "rental", status := "available" }

/-- A well-priced candidate that passes the threshold on category alone. -/
def candGood : Item :=
  { id := 3, user_id := 3, title := "drill", description := "a drill", price := 50,
    category := "Tools", condition := "good", location := "", tags := "",
    available_for := "rental", status := "available" }

def storeZ : Store :=
  { users := [ownerZ, userZ2, userZ3], items := [srcZ, candZero, candGood],
    transactions := [] }

theorem priceScore_zero_fifty : priceScore 0 50 = some 0 := by
  unfold priceScore
  have hmax : max (0 : ℚ) 50 = 50 := max_eq_right (by norm_num)
  rw [hmax]
  norm_num

theorem scoreItem_srcZ_candGood : scoreItem srcZ candGood = some 40 := by
  unfold scoreItem
  have h1 : priceScore srcZ.price candGood.price = some 0 := priceScore_zero_fifty
  rw [h1]
  simp only [Option.map_some']
  norm_num [categoryScore, locationScore, tagScore, srcZ, candGood]

/-- Claim C4 falsifying evaluation: with the source item and one candidate
both priced 0, the unguarded division raises (the price factor yields no
value), the enclosing catch-all handler turns the whole call into the empty
list, and even a candidate scoring 40 — well above the threshold — is
discarded.  The zero-price pair is not treated as a zero-contribution factor
and the rest of the pool is not scored. -/
theorem find_matches_zero_price_division :
    priceScore srcZ.price candZero.price = none ∧
    scoreItem srcZ candGood = some 40 ∧
    find_matches storeZ 1 99 = [] := by
  refine ⟨by decide, scoreItem_srcZ_candGood, by decide⟩

/-- Witness for the C5 theorem at a concrete store, the source-item lookup
hypothesis discharged by evaluation. -/
theorem find_matches_output_spec_witness :
    (find_matches storeZ 1 99).length ≤ 5 ∧
    ∀ m ∈ find_matches storeZ 1 99,
      30 ≤ m.match_score ∧ m.match_score ≤ 100 ∧
      ∃ c ∈ storeZ.items, c.id = m.id ∧ c.user_id = m.user_id ∧
        c.user_id ≠ srcZ.user_id ∧ c.user_id ≠ 99 ∧ c.status = "available" :=
  ⟨(find_matches_output_spec storeZ 1 99).1,
   ((find_matches_output_spec storeZ 1 99).2.2 srcZ rfl).1⟩

end ItemApp
